import Mathlib

/-!
Shallow embedding of the Diffie-Hellman demonstration utilities in
src/dh_params.py (module dh_params), together with theorems settling the
specification claims about them.

Conventions of the embedding:
* Python big integers in this code base are always non-negative (the spec's
  BigUint), so they are modelled as Nat.
* Python `pow(b, e, m)` is modelled by pow3: it raises ValueError when the
  modulus is 0 and otherwise returns `b ^ e % m`.
* Fallible Python functions (those that can raise) return Except String.
* Text messages are modelled by their UTF-8 byte sequences (List Nat of
  values < 256); Python's str.encode('utf-8') / bytes.decode('utf-8') pair
  is the identity on this representation.
-/

namespace DHKE

/-- RFC 3526 2048-bit MODP prime, copied from dh_params.py PRIME_2048. -/
def PRIME_2048 : Nat :=
  0xFFFFFFFFFFFFFFFFC90FDAA22168C234C4C6628B80DC1CD129024E088A67CC74020BBEA63B139B22514A08798E3404DDEF9519B3CD3A431B302B0A6DF25F14374FE1356D6D51C245E485B576625E7EC6F44C42E9A637ED6B0BFF5CB6F406B7EDEE386BFB5A899FA5AE9F24117C4B1FE649286651ECE45B3DC2007CB8A163BF0598DA48361C55D39A69163FA8FD24CF5F83655D23DCA3AD961C62F356208552BB9ED529077096966D670C354E4ABC9804F1746C08CA18217C32905E462E36CE3BE39E772C180E86039B2783A2EC07A28FB5C55DF06F4C52C9DE2BCBF6955817183995497CEA956AE515D2261898FA051015728E5A8AACAA68FFFFFFFFFFFFFFFF

/-- RFC 3526 1024-bit MODP prime, copied from dh_params.py PRIME_1024. -/
def PRIME_1024 : Nat :=
  0xFFFFFFFFFFFFFFFFC90FDAA22168C234C4C6628B80DC1CD129024E088A67CC74020BBEA63B139B22514A08798E3404DDEF9519B3CD3A431B302B0A6DF25F14374FE1356D6D51C245E485B576625E7EC6F44C42E9A637ED6B0BFF5CB6F406B7EDEE386BFB5A899FA5AE9F24117C4B1FE649286651ECE45B3DC2007CB8A163BF0598DA48361C55D39A69163FA8FD24CF5F83655D23DCA3AD961C62F356208552BB9ED529077096966D670C354E4ABC9804F1746C08CA237327FFFFFFFFFFFFFFFF

/-- Small prime for the weak parameter demonstration (dh_params.py PRIME_WEAK). -/
def PRIME_WEAK : Nat := 23

/-- Default generator (dh_params.py GENERATOR). -/
def GENERATOR : Nat := 2

/-- The `bit_length` argument of get_dh_params is duck-typed in Python:
the code compares it against the ints 2048 and 1024 and the string "weak". -/
inductive BitLength where
  | num (n : Nat)
  | str (s : String)
deriving DecidableEq

/-- How a BitLength value prints inside the Python f-string
`f"Unsupported bit length: \x7bbit_length\x7d"`. -/
def BitLength.repr : BitLength → String
  | .num n => Nat.repr n
  | .str s => s

/-- dh_params.get_dh_params: returns (prime, generator) for the labels
2048, 1024 and "weak", and raises ValueError otherwise. -/
def get_dh_params (bit_length : BitLength) : Except String (Nat × Nat) :=
  if bit_length = .num 2048 then .ok (PRIME_2048, GENERATOR)
  else if bit_length = .num 1024 then .ok (PRIME_1024, GENERATOR)
  else if bit_length = .str "weak" then .ok (PRIME_WEAK, 5)
  else .error ("Unsupported bit length: " ++ bit_length.repr)

/-- dh_params.generate_private_key with secure=True: `r` is the 256-bit
entropy draw `int.from_bytes(os.urandom(32), 'big')`; the key is
`(r % (p - 2)) + 1`. -/
def generate_private_key (p r : Nat) : Nat :=
  r % (p - 2) + 1

/-- Python's three-argument pow: raises ValueError on modulus 0, otherwise
computes `b ^ e % m` (fast modular exponentiation). -/
def pow3 (b e m : Nat) : Except String Nat :=
  if m = 0 then .error "pow() 3rd argument cannot be 0"
  else .ok (b ^ e % m)

/-- dh_params.compute_public_key: `pow(g, private_key, p)`. -/
def compute_public_key (g private_key p : Nat) : Except String Nat :=
  pow3 g private_key p

/-- dh_params.compute_shared_secret: `pow(public_key, private_key, p)`. -/
def compute_shared_secret (public_key private_key p : Nat) : Except String Nat :=
  pow3 public_key private_key p

/-- The loop of dh_params.brute_force_discrete_log: tries `fuel` successive
exponents starting at `x`. Inside the loop `p ≥ 2`, so `pow(g, x, p)` never
raises and is `g ^ x % p`. -/
def bfLoop (g public_key p : Nat) : Nat → Nat → Option Nat
  | _, 0 => none
  | x, fuel + 1 =>
    if g ^ x % p = public_key then some x
    else bfLoop g public_key p (x + 1) fuel

/-- dh_params.brute_force_discrete_log: `for x in range(1, p)`, return the
first `x` with `pow(g, x, p) == public_key`, else None. Note the source
function takes exactly these three parameters. -/
def brute_force_discrete_log (g public_key p : Nat) : Option Nat :=
  bfLoop g public_key p 1 (p - 1)

/-! ### SHA-256 (hashlib.sha256), modelled per FIPS 180-4

dh_params.derive_key hashes `str(shared_secret).encode('utf-8')` with
SHA-256 and returns the 32-byte digest. Words are Nat reduced mod 2^32. -/

/-- 2^32, the word modulus of SHA-256. -/
def M32 : Nat := 4294967296

/-- Addition of 32-bit words. -/
def add32 (a b : Nat) : Nat := (a + b) % M32

/-- Right rotation of a 32-bit word by `n` (0 < n < 32). -/
def rotr32 (x n : Nat) : Nat := ((x >>> n) ||| (x <<< (32 - n))) % M32

/-- Bitwise complement within 32 bits. -/
def not32 (x : Nat) : Nat := x ^^^ (M32 - 1)

/-- SHA-256 Ch(x,y,z). -/
def sChoose (x y z : Nat) : Nat := (x &&& y) ^^^ (not32 x &&& z)

/-- SHA-256 Maj(x,y,z). -/
def sMajor (x y z : Nat) : Nat := (x &&& y) ^^^ (x &&& z) ^^^ (y &&& z)

/-- SHA-256 Σ0. -/
def bigSigma0 (x : Nat) : Nat := rotr32 x 2 ^^^ rotr32 x 13 ^^^ rotr32 x 22

/-- SHA-256 Σ1. -/
def bigSigma1 (x : Nat) : Nat := rotr32 x 6 ^^^ rotr32 x 11 ^^^ rotr32 x 25

/-- SHA-256 σ0. -/
def smallSigma0 (x : Nat) : Nat := rotr32 x 7 ^^^ rotr32 x 18 ^^^ (x >>> 3)

/-- SHA-256 σ1. -/
def smallSigma1 (x : Nat) : Nat := rotr32 x 17 ^^^ rotr32 x 19 ^^^ (x >>> 10)

/-- The 64 SHA-256 round constants (FIPS 180-4 §4.2.2), in decimal. -/
def K256 : List Nat :=
  [1116352408, 1899447441, 3049323471, 3921009573, 961987163, 1508970993,
   2453635748, 2870763221, 3624381080, 310598401, 607225278, 1426881987,
   1925078388, 2162078206, 2614888103, 3248222580, 3835390401, 4022224774,
   264347078, 604807628, 770255983, 1249150122, 1555081692, 1996064986,
   2554220882, 2821834349, 2952996808, 3210313671, 3336571891, 3584528711,
   113926993, 338241895, 666307205, 773529912, 1294757372, 1396182291,
   1695183700, 1986661051, 2177026350, 2456956037, 2730485921, 2820302411,
   3259730800, 3345764771, 3516065817, 3600352804, 4094571909, 275423344,
   430227734, 506948616, 659060556, 883997877, 958139571, 1322822218,
   1537002063, 1747873779, 1955562222, 2024104815, 2227730452, 2361852424,
   2428436474, 2756734187, 3204031479, 3329325298]

/-- Big-endian byte serialization of `n` on `k` bytes. -/
def beBytes : Nat → Nat → List Nat
  | 0, _ => []
  | k + 1, n => beBytes k (n / 256) ++ [n % 256]

/-- SHA-256 message padding: append 0x80, zeros to 56 mod 64 bytes, then the
bit length on 8 big-endian bytes. -/
def padMessage (msg : List Nat) : List Nat :=
  let len := msg.length
  msg ++ [0x80] ++ List.replicate ((55 + 64 - len % 64) % 64) 0
      ++ beBytes 8 (len * 8)

/-- Group a byte list into big-endian 32-bit words. -/
def toWords : List Nat → List Nat
  | b0 :: b1 :: b2 :: b3 :: rest =>
    (((b0 * 256 + b1) * 256 + b2) * 256 + b3) :: toWords rest
  | _ => []

/-- One step of the message-schedule extension: append
`σ1(W[t-2]) + W[t-7] + σ0(W[t-15]) + W[t-16]` (mod 2^32). -/
def extendStep (w : List Nat) : List Nat :=
  let t := w.length
  w ++ [add32 (add32 (smallSigma1 (w.getD (t - 2) 0)) (w.getD (t - 7) 0))
              (add32 (smallSigma0 (w.getD (t - 15) 0)) (w.getD (t - 16) 0))]

/-- Extend a 16-word block `n` more times. -/
def extendSchedule : Nat → List Nat → List Nat
  | 0, w => w
  | n + 1, w => extendSchedule n (extendStep w)

/-- The eight working registers of the compression function. -/
structure Regs where
  a : Nat
  b : Nat
  c : Nat
  d : Nat
  e : Nat
  f : Nat
  g : Nat
  h : Nat

/-- One compression round with constant-and-schedule pair `kw`. -/
def roundStep (s : Regs) (kw : Nat × Nat) : Regs :=
  let t1 := add32 (add32 (add32 s.h (bigSigma1 s.e))
                         (add32 (sChoose s.e s.f s.g) kw.1)) kw.2
  let t2 := add32 (bigSigma0 s.a) (sMajor s.a s.b s.c)
  { a := add32 t1 t2, b := s.a, c := s.b, d := s.c,
    e := add32 s.d t1, f := s.e, g := s.f, h := s.g }

/-- The intermediate hash value (eight 32-bit words). -/
structure Hash8 where
  h0 : Nat
  h1 : Nat
  h2 : Nat
  h3 : Nat
  h4 : Nat
  h5 : Nat
  h6 : Nat
  h7 : Nat

/-- SHA-256 initial hash value (FIPS 180-4 §5.3.3), in decimal. -/
def initH : Hash8 :=
  ⟨1779033703, 3144134277, 1013904242, 2773480762,
   1359893119, 2600822924, 528734635, 1541459225⟩

/-- Compress one 16-word block into the running hash. -/
def processBlock (hv : Hash8) (block : List Nat) : Hash8 :=
  let w := extendSchedule 48 block
  let s := (K256.zip w).foldl roundStep
    ⟨hv.h0, hv.h1, hv.h2, hv.h3, hv.h4, hv.h5, hv.h6, hv.h7⟩
  ⟨add32 hv.h0 s.a, add32 hv.h1 s.b, add32 hv.h2 s.c, add32 hv.h3 s.d,
   add32 hv.h4 s.e, add32 hv.h5 s.f, add32 hv.h6 s.g, add32 hv.h7 s.h⟩

/-- Process `fuel` successive 16-word blocks of `words`. -/
def processAll : Nat → Hash8 → List Nat → Hash8
  | 0, hv, _ => hv
  | fuel + 1, hv, words =>
    processAll fuel (processBlock hv (words.take 16)) (words.drop 16)

/-- SHA-256 of a byte sequence, as the 32-byte digest. -/
def sha256 (msg : List Nat) : List Nat :=
  let words := toWords (padMessage msg)
  let hv := processAll (words.length / 16) initH words
  beBytes 4 hv.h0 ++ beBytes 4 hv.h1 ++ beBytes 4 hv.h2 ++ beBytes 4 hv.h3 ++
  beBytes 4 hv.h4 ++ beBytes 4 hv.h5 ++ beBytes 4 hv.h6 ++ beBytes 4 hv.h7

/-- The UTF-8 bytes of `str(n)` for a non-negative Python int: the ASCII
codes of the decimal digits. Structural recursion on a fuel bound. -/
def decBytesAux : Nat → Nat → List Nat
  | 0, _ => []
  | fuel + 1, n =>
    if n < 10 then [48 + n]
    else decBytesAux fuel (n / 10) ++ [48 + n % 10]

/-- The UTF-8 bytes of `str(n)`. -/
def natDecBytes (n : Nat) : List Nat := decBytesAux (n + 1) n

/-- dh_params.derive_key: `hashlib.sha256(str(shared_secret).encode('utf-8')).digest()`. -/
def derive_key (shared_secret : Nat) : List Nat :=
  sha256 (natDecBytes shared_secret)

/-! ### XOR stream cipher (simple_encrypt / simple_decrypt)

Both functions run the same loop: byte `i` of the input is XORed with
`key[i % len(key)]`. In Python `i % 0` raises ZeroDivisionError, so the
loop body fails on an empty key; an empty input never enters the loop. -/

/-- The shared loop of simple_encrypt and simple_decrypt, starting at
index `i`. -/
def xorLoop (key : List Nat) : Nat → List Nat → Except String (List Nat)
  | _, [] => .ok []
  | i, b :: rest =>
    if key.length = 0 then .error "integer modulo by zero"
    else
      match xorLoop key (i + 1) rest with
      | .error e => .error e
      | .ok tl => .ok ((b ^^^ key.getD (i % key.length) 0) :: tl)

/-- dh_params.simple_encrypt on the UTF-8 bytes of the message. -/
def simple_encrypt (message key : List Nat) : Except String (List Nat) :=
  xorLoop key 0 message

/-- dh_params.simple_decrypt: the same XOR loop (the final
`bytes.decode('utf-8')` is the inverse of the encoding convention both
paths share and is the identity on this byte-level representation). -/
def simple_decrypt (encrypted_message key : List Nat) : Except String (List Nat) :=
  xorLoop key 0 encrypted_message

/-- dh_params.validate_params: raises on `p < 2`, then on
`g < 2 or g >= p - 1`, else returns True. -/
def validate_params (p g : Nat) : Except String Bool :=
  if p < 2 then .error "Prime must be at least 2"
  else if g < 2 ∨ p - 1 ≤ g then
    .error ("Generator must be in range [2, " ++ Nat.repr (p - 2) ++ "]")
  else .ok true

/-! ### Helper definitions and lemmas for the proofs -/

/-- The pure value computed by the XOR loop when the key is non-empty. -/
def pureXor (key : List Nat) : Nat → List Nat → List Nat
  | _, [] => []
  | i, b :: rest => (b ^^^ key.getD (i % key.length) 0) :: pureXor key (i + 1) rest

lemma xorLoop_ok (key : List Nat) (hk : key.length ≠ 0) :
    ∀ msg i, xorLoop key i msg = .ok (pureXor key i msg) := by
  intro msg
  induction msg with
  | nil => intro i; simp [xorLoop, pureXor]
  | cons b rest ih => intro i; simp [xorLoop, pureXor, hk, ih (i + 1)]

lemma pureXor_pureXor (key : List Nat) :
    ∀ msg i, pureXor key i (pureXor key i msg) = msg := by
  intro msg
  induction msg with
  | nil => intro i; simp [pureXor]
  | cons b rest ih =>
    intro i
    simp [pureXor, ih (i + 1), Nat.xor_cancel_right]

lemma bfLoop_some : ∀ fuel x r g t p, bfLoop g t p x fuel = some r →
    x ≤ r ∧ r < x + fuel ∧ g ^ r % p = t ∧ ∀ y, x ≤ y → y < r → g ^ y % p ≠ t := by
  intro fuel
  induction fuel with
  | zero => intro x r g t p h; simp [bfLoop] at h
  | succ fuel ih =>
    intro x r g t p h
    rw [bfLoop] at h
    by_cases hgx : g ^ x % p = t
    · rw [if_pos hgx] at h
      obtain rfl : x = r := by simpa using h
      exact ⟨Nat.le_refl x, by omega, hgx, fun y hy1 hy2 => by omega⟩
    · rw [if_neg hgx] at h
      obtain ⟨h1, h2, h3, h4⟩ := ih (x + 1) r g t p h
      refine ⟨by omega, by omega, h3, fun y hy1 hy2 => ?_⟩
      rcases Nat.eq_or_lt_of_le hy1 with rfl | hlt
      · exact hgx
      · exact h4 y hlt hy2

lemma bfLoop_none : ∀ fuel x g t p, bfLoop g t p x fuel = none →
    ∀ y, x ≤ y → y < x + fuel → g ^ y % p ≠ t := by
  intro fuel
  induction fuel with
  | zero => intro x g t p _ y hy1 hy2; omega
  | succ fuel ih =>
    intro x g t p h y hy1 hy2
    rw [bfLoop] at h
    by_cases hgx : g ^ x % p = t
    · rw [if_pos hgx] at h; exact absurd h (by simp)
    · rw [if_neg hgx] at h
      rcases Nat.eq_or_lt_of_le hy1 with rfl | hlt
      · exact hgx
      · exact ih (x + 1) g t p h y hlt (by omega)

lemma beBytes_length : ∀ k n, (beBytes k n).length = k := by
  intro k
  induction k with
  | zero => intro n; simp [beBytes]
  | succ k ih => intro n; simp [beBytes, ih]

lemma prime_msg_ne_generator_msg (s : String) :
    "Prime must be at least 2" ≠ "Generator must be in range [2, " ++ s ++ "]" := by
  intro h
  have h2 := congrArg String.data h
  simp [String.data_append] at h2

/-! ### The claims -/

/-- C1. Agreement: for every modulus `p ≥ 2`, generator `g` and private
exponents `a`, `b`, running compute_shared_secret on the other party's
compute_public_key output yields the same value on both sides:
`(g^b)^a mod p = (g^a)^b mod p`. -/
theorem c1_shared_secret_agreement (p g a b : Nat) (hp : 2 ≤ p) :
    (compute_public_key g b p).bind (fun pubB => compute_shared_secret pubB a p) =
    (compute_public_key g a p).bind (fun pubA => compute_shared_secret pubA b p) := by
  have hp0 : ¬ p = 0 := by omega
  simp only [compute_public_key, compute_shared_secret, pow3, if_neg hp0, Except.bind]
  have key : ∀ u v : Nat, (g ^ u % p) ^ v % p = g ^ (u * v) % p := by
    intro u v
    rw [← Nat.pow_mod, ← pow_mul]
  rw [key, key, Nat.mul_comm]

/-- Witness for C1 on the toy parameters p = 23, g = 5, a = 6, b = 15. -/
theorem c1_shared_secret_agreement_witness :
    2 ≤ 23 ∧
    (compute_public_key 5 15 23).bind (fun pubB => compute_shared_secret pubB 6 23) =
    (compute_public_key 5 6 23).bind (fun pubA => compute_shared_secret pubA 15 23) :=
  ⟨by decide, c1_shared_secret_agreement 23 5 6 15 (by decide)⟩

/-- C2. brute_force_discrete_log tries x = 1, 2, … < p and returns the first
x with `g^x mod p = target` (none when no x matches); concretely, with
p = 23, g = 5, private = 17, compute_public_key gives 15 and the brute-force
search recovers 17. -/
theorem c2_brute_force_correct :
    (∀ g t p r, brute_force_discrete_log g t p = some r →
       1 ≤ r ∧ r < p ∧ g ^ r % p = t ∧ ∀ y, 1 ≤ y → y < r → g ^ y % p ≠ t) ∧
    (∀ g t p, brute_force_discrete_log g t p = none →
       ∀ y, 1 ≤ y → y < p → g ^ y % p ≠ t) ∧
    compute_public_key 5 17 23 = .ok 15 ∧
    brute_force_discrete_log 5 15 23 = some 17 := by
  refine ⟨?_, ?_, rfl, by decide⟩
  · intro g t p r h
    rw [brute_force_discrete_log] at h
    obtain ⟨h1, h2, h3, h4⟩ := bfLoop_some (p - 1) 1 r g t p h
    have hp : 1 ≤ p := by
      by_contra hp
      have hp0 : p = 0 := by omega
      subst hp0
      simp [bfLoop] at h
    exact ⟨h1, by omega, h3, h4⟩
  · intro g t p h y hy1 hy2
    rw [brute_force_discrete_log] at h
    exact bfLoop_none (p - 1) 1 g t p h y hy1 (by omega)

/-- Witness for C2: instantiating the first-match characterization at the
toy search result shows 5^17 mod 23 is indeed the target 15. -/
theorem c2_brute_force_correct_witness : 5 ^ 17 % 23 = 15 :=
  (c2_brute_force_correct.1 5 15 23 17 (by decide)).2.2.1

/-- C3 counterexample: the parameter catalog is NOT total on a 512-bit
label — get_dh_params raises the unsupported-bit-length ValueError at 512,
so the claim's four-label totality fails on this concrete input. -/
theorem c3_counterexample_512 :
    get_dh_params (.num 512) = .error "Unsupported bit length: 512" := rfl

/-- C3 (amended). The catalog lookup is total for exactly the three defined
labels 2048, 1024 and "weak" — returning the fixed (prime, generator) pair
for each (generator 2 for the large primes, generator 5 with prime 23 for
the toy set) — and raises the unsupported-bit-length error for every other
label. -/
theorem c3_parameter_catalog :
    get_dh_params (.num 2048) = .ok (PRIME_2048, GENERATOR) ∧
    get_dh_params (.num 1024) = .ok (PRIME_1024, GENERATOR) ∧
    get_dh_params (.str "weak") = .ok (23, 5) ∧
    ∀ l : BitLength, l ≠ .num 2048 → l ≠ .num 1024 → l ≠ .str "weak" →
      get_dh_params l = .error ("Unsupported bit length: " ++ l.repr) := by
  refine ⟨rfl, rfl, rfl, ?_⟩
  intro l h1 h2 h3
  simp [get_dh_params, h1, h2, h3]

/-- Witness for C3 at the undefined label "strong". -/
theorem c3_parameter_catalog_witness :
    get_dh_params (.str "strong") =
      .error ("Unsupported bit length: " ++ (BitLength.str "strong").repr) :=
  c3_parameter_catalog.2.2.2 (.str "strong") (by decide) (by decide) (by decide)

/-- C5. Cipher involution: for every message (as its UTF-8 byte sequence)
and every non-empty key, simple_decrypt undoes simple_encrypt, because both
run the identical XOR-with-cycling-key loop and share the same encoding
convention. -/
theorem c5_cipher_involution (message key : List Nat) (hk : key ≠ []) :
    (simple_encrypt message key).bind (fun c => simple_decrypt c key) =
      .ok message := by
  have hk0 : key.length ≠ 0 := fun h => hk (List.length_eq_zero.mp h)
  simp [simple_encrypt, simple_decrypt, xorLoop_ok key hk0, Except.bind,
    pureXor_pureXor]

/-- Witness for C5 on message bytes [72, 105] ("Hi") with key [7]. -/
theorem c5_cipher_involution_witness :
    (simple_encrypt [72, 105] [7]).bind (fun c => simple_decrypt c [7]) =
      .ok [72, 105] :=
  c5_cipher_involution [72, 105] [7] (by decide)

/-- C6. validate_params succeeds exactly when `2 ≤ p`, `2 ≤ g` and
`g < p - 1`; it fails with the invalid-prime error exactly when `p < 2`,
and with the invalid-generator error exactly when `p ≥ 2` and
(`g < 2` or `g ≥ p - 1`) — the prime check takes precedence. In particular
validate_params 1 2 is the prime error and validate_params 23 1 the
generator error. -/
theorem c6_validate_params (p g : Nat) :
    (validate_params p g = .ok true ↔ 2 ≤ p ∧ 2 ≤ g ∧ g < p - 1) ∧
    (validate_params p g = .error "Prime must be at least 2" ↔ p < 2) ∧
    (validate_params p g =
        .error ("Generator must be in range [2, " ++ Nat.repr (p - 2) ++ "]")
      ↔ 2 ≤ p ∧ (g < 2 ∨ p - 1 ≤ g)) ∧
    validate_params 1 2 = .error "Prime must be at least 2" ∧
    validate_params 23 1 = .error "Generator must be in range [2, 21]" := by
  by_cases hp : p < 2
  · have hv : validate_params p g = .error "Prime must be at least 2" := by
      rw [validate_params, if_pos hp]
    refine ⟨?_, ?_, ?_, rfl, rfl⟩
    · rw [hv]
      constructor
      · intro h; exact absurd h (by simp)
      · rintro ⟨h1, -, -⟩; omega
    · rw [hv]; simp [hp]
    · rw [hv]
      constructor
      · intro h
        exact absurd (Except.error.inj h) (prime_msg_ne_generator_msg _)
      · rintro ⟨h1, -⟩; omega
  · by_cases hg : g < 2 ∨ p - 1 ≤ g
    · have hv : validate_params p g =
          .error ("Generator must be in range [2, " ++ Nat.repr (p - 2) ++ "]") := by
        rw [validate_params, if_neg hp, if_pos hg]
      refine ⟨?_, ?_, ?_, rfl, rfl⟩
      · rw [hv]
        constructor
        · intro h; exact absurd h (by simp)
        · rintro ⟨-, h2, h3⟩; exact (by omega : False).elim
      · rw [hv]
        constructor
        · intro h
          exact absurd (Except.error.inj h).symm (prime_msg_ne_generator_msg _)
        · intro h; exact absurd h hp
      · rw [hv]
        constructor
        · intro _; exact ⟨by omega, hg⟩
        · intro _; rfl
    · have hv : validate_params p g = .ok true := by
        rw [validate_params, if_neg hp, if_neg hg]
      refine ⟨?_, ?_, ?_, rfl, rfl⟩
      · rw [hv]
        constructor
        · intro _; omega
        · intro _; rfl
      · rw [hv]
        constructor
        · intro h; exact absurd h (by simp)
        · intro h; exact absurd h hp
      · rw [hv]
        constructor
        · intro h; exact absurd h (by simp)
        · intro h; exact absurd h.2 hg

/-- Witness for C6: validate_params accepts the toy parameters (23, 5). -/
theorem c6_validate_params_witness : validate_params 23 5 = .ok true :=
  (c6_validate_params 23 5).1.mpr (by decide)

/-- C7 counterexample: at prime 1 (< 2), compute_public_key does NOT fail —
Python's pow(g, a, 1) returns 0 — refuting the claim that every prime < 2
fails with an invalid-modulus error. -/
theorem c7_counterexample_prime_one :
    1 < 2 ∧ compute_public_key 2 3 1 = .ok 0 := ⟨by decide, rfl⟩

/-- C7 (amended). compute_public_key fails (ValueError: pow() 3rd argument
cannot be 0) exactly when the modulus is 0; for every prime ≥ 1 it returns
`g ^ private mod p` without error. -/
theorem c7_compute_public_key (g a p : Nat) :
    (p = 0 → compute_public_key g a p = .error "pow() 3rd argument cannot be 0") ∧
    (p ≠ 0 → compute_public_key g a p = .ok (g ^ a % p)) := by
  constructor <;> intro h <;> simp [compute_public_key, pow3, h]

/-- Witness for C7 at g = 5, a = 3, p = 7 (and the failing modulus 0). -/
theorem c7_compute_public_key_witness :
    compute_public_key 5 3 7 = .ok (5 ^ 3 % 7) ∧
    compute_public_key 5 3 0 = .error "pow() 3rd argument cannot be 0" :=
  ⟨(c7_compute_public_key 5 3 7).2 (by decide),
   (c7_compute_public_key 5 3 0).1 rfl⟩

/-- C8. For every prime `p ≥ 3` and every entropy draw `r`, the secure path
of generate_private_key returns `(r mod (p-2)) + 1`, which lies in
`[1, p-2]` — the KeyPair invariant. -/
theorem c8_private_key_range (p r : Nat) (hp : 3 ≤ p) :
    1 ≤ generate_private_key p r ∧ generate_private_key p r ≤ p - 2 := by
  have hlt : r % (p - 2) < p - 2 := Nat.mod_lt r (by omega)
  unfold generate_private_key
  omega

/-- Witness for C8 at p = 23 with draw r = 1000. -/
theorem c8_private_key_range_witness :
    3 ≤ 23 ∧ 1 ≤ generate_private_key 23 1000 ∧
      generate_private_key 23 1000 ≤ 21 :=
  ⟨by decide, c8_private_key_range 23 1000 (by decide)⟩

/-- C9. derive_key is a deterministic function of the shared secret alone
and its SHA-256 digest of the decimal encoding is always exactly 32 bytes. -/
theorem c9_derive_key_deterministic_32 (s : Nat) :
    derive_key s = derive_key s ∧ (derive_key s).length = 32 := by
  refine ⟨rfl, ?_⟩
  simp [derive_key, sha256, List.length_append, beBytes_length]

/-- C10. With an empty key and a non-empty message, both simple_encrypt and
simple_decrypt raise (ZeroDivisionError from `i % len(key)`) instead of
returning a result: the non-empty-key precondition is necessary. -/
theorem c10_empty_key_error (message : List Nat) (hm : message ≠ []) :
    simple_encrypt message [] = .error "integer modulo by zero" ∧
    simple_decrypt message [] = .error "integer modulo by zero" := by
  cases message with
  | nil => exact absurd rfl hm
  | cons b rest => simp [simple_encrypt, simple_decrypt, xorLoop]

/-- Witness for C10 on the one-byte message [72]. -/
theorem c10_empty_key_error_witness :
    simple_encrypt [72] [] = .error "integer modulo by zero" ∧
    simple_decrypt [72] [] = .error "integer modulo by zero" :=
  c10_empty_key_error [72] (by decide)

end DHKE
